import Mathlib

/-!
Verification of `src/frog_registry.py` (FrogSpeciesRegistry).

The program is a small Tkinter form over a SQLite table `frogs` whose
`species_name` column is stored as Fernet ciphertext.  We embed the three
storage-relevant operations — `load_or_generate_key`, `save_record` and
`view_registry` — as pure Lean functions over an explicit database state,
and the `cryptography.fernet` library symbolically:

* a Fernet key is a byte sequence (`List Nat`); the `Fernet(key)`
  constructor validates that the key is 32 url-safe base64-encoded bytes
  (44 characters, the last one a padding character) and raises otherwise,
  which we model by returning `Option Fernet`;
* an encryption token is modelled symbolically (Dolev–Yao style) as the
  pair of the encrypting key and the plaintext, so that decryption with
  the same key recovers the plaintext exactly, and decryption with a
  different key or of a non-token text fails — the defining properties of
  Fernet's authenticated encryption;
* `Fernet.generate_key()` / `os.urandom` randomness is passed in
  explicitly as a `freshKey` argument.

SQLite is embedded as a list of rows kept in insertion order together with
the `AUTOINCREMENT` counter (next rowid, starting at 1).  Tkinter widgets
reduce to the strings read from them (`Entry.get`, `Combobox.get`);
`messagebox` calls become the constructors of `SaveResult`.
-/

/-- Model of Python `str.isspace` restricted to the ASCII whitespace
characters relevant to `str.strip()`: space, tab, newline, carriage
return, vertical tab and form feed. -/
def pyIsSpace (c : Char) : Bool :=
  c == ' ' || c == '\t' || c == '\n' || c == '\r' ||
  c == Char.ofNat 11 || c == Char.ofNat 12

/-- Model of Python `str.strip()`: drop leading and trailing whitespace. -/
def pyStrip (s : String) : String :=
  String.mk (((s.data.dropWhile pyIsSpace).reverse.dropWhile pyIsSpace).reverse)

/-- Byte 61 is the base64 padding character, bytes in the url-safe base64
alphabet are letters, digits, 45 and 95. -/
def isB64UrlByte (c : Nat) : Bool :=
  (65 ≤ c && c ≤ 90) || (97 ≤ c && c ≤ 122) || (48 ≤ c && c ≤ 57) ||
  c == 45 || c == 95

/-- A valid Fernet key is the url-safe base64 encoding of 32 raw bytes:
44 bytes, 43 alphabet characters followed by one padding character.
`Fernet.generate_key()` always produces such a key; `Fernet.__init__`
raises `ValueError` on anything else. -/
def validFernetKey (k : List Nat) : Bool :=
  k.length == 44 && (k.take 43).all isB64UrlByte && k.drop 43 == [61]

/-- The Fernet cipher object: it wraps the key bytes it was built from. -/
structure Fernet where
  key : List Nat
deriving DecidableEq, Repr

/-- Model of the `Fernet(key)` constructor: validates the key format and
raises (`none`) if the bytes are not a 32-byte url-safe base64 key. -/
def fernetInit (k : List Nat) : Option Fernet :=
  if validFernetKey k then some ⟨k⟩ else none

/-- A text value stored in the `species_name` column: either a well-formed
Fernet token produced by encrypting `msg` under `key`, or any other text
(corrupted ciphertext, data that never was a token). -/
inductive CipherText where
  | token (key : List Nat) (msg : String)
  | garbage (text : String)
deriving DecidableEq, Repr

/-- Model of `cipher.encrypt(m.encode()).decode()`: encryption with a
(valid) Fernet never fails and yields a token recoverable under the same
key.  `save_record` is parametrised over an arbitrary encryption function
so that the behaviour of its `try/except` guard is also captured. -/
def fernetEncrypt (f : Fernet) (m : String) : Option CipherText :=
  some (.token f.key m)

/-- Model of `cipher.decrypt(c.encode()).decode()`: succeeds exactly on a
token produced under the same key, returning the original plaintext;
raises (`none`) on a key mismatch or on text that is not a token. -/
def fernetDecrypt (f : Fernet) (c : CipherText) : Option String :=
  match c with
  | .token k m => if k = f.key then some m else none
  | .garbage _ => none

/-- Model of `load_or_generate_key` (frog_registry.py lines 44-53).  The
filesystem at `self.key_file` is the `Option (List Nat)` argument (file
contents, or `none` when absent); `freshKey` stands for the output of
`Fernet.generate_key()`.  Returns the constructed cipher (`none` models
the `ValueError` raised by `Fernet(key)`) and the resulting file state. -/
def load_or_generate_key (freshKey : List Nat) (fs : Option (List Nat)) :
    Option Fernet × Option (List Nat) :=
  match fs with
  | some key => (fernetInit key, some key)
  | none => (fernetInit freshKey, some freshKey)

/-- A row of the `frogs` table. -/
structure Row where
  id : Nat
  species_name : CipherText
  genus : String
  habitat : String
  conservation_status : String
deriving DecidableEq, Repr

/-- The `frogs` table: rows in storage (insertion) order plus the
`AUTOINCREMENT` counter for the next `id`. -/
structure DB where
  rows : List Row
  nextId : Nat
deriving DecidableEq, Repr

/-- Model of `create_table` (lines 55-66): `CREATE TABLE IF NOT EXISTS`
keeps an existing table and otherwise creates an empty one whose
`AUTOINCREMENT` counter starts at 1. -/
def create_table (existing : Option DB) : DB :=
  existing.getD ⟨[], 1⟩

/-- The four form inputs as read from the widgets: three `Entry.get()`
strings and the `Combobox.get()` string. -/
structure Entries where
  species : String
  genus : String
  habitat : String
  status : String
deriving DecidableEq, Repr

/-- Outcome of `save_record` as surfaced to the user: the two
`messagebox.showerror` branches, or success (the row was written; its
auto-assigned rowid is recorded here). -/
inductive SaveResult where
  | validationError
  | encryptionError
  | success (id : Nat)
deriving DecidableEq, Repr

/-- Model of `save_record` (lines 68-96): strip the three entry fields,
read the combobox as-is, reject if any is empty, encrypt the species name
(aborting on failure), then insert the row with the next auto-increment
id.  `enc` is the encryption function (`fernetEncrypt f` for a cipher
`f`; the parameter keeps the `try/except` branch meaningful). -/
def save_record (enc : String → Option CipherText) (e : Entries) (db : DB) :
    SaveResult × DB :=
  let species_name := pyStrip e.species
  let genus := pyStrip e.genus
  let habitat := pyStrip e.habitat
  let conservation_status := e.status
  if species_name = "" ∨ genus = "" ∨ habitat = "" ∨ conservation_status = "" then
    (.validationError, db)
  else
    match enc species_name with
    | none => (.encryptionError, db)
    | some ct =>
      (.success db.nextId,
        { rows := db.rows ++ [⟨db.nextId, ct, genus, habitat, conservation_status⟩],
          nextId := db.nextId + 1 })

/-- A row as displayed in the registry Treeview. -/
structure ViewRow where
  id : Nat
  species : String
  genus : String
  habitat : String
  conservation_status : String
deriving DecidableEq, Repr

/-- The per-row body of the `view_registry` loop (lines 121-127): try to
decrypt the species name, substituting the sentinel on failure, and keep
the other columns as stored. -/
def decryptRow (f : Fernet) (r : Row) : ViewRow :=
  { id := r.id
    species :=
      match fernetDecrypt f r.species_name with
      | some s => s
      | none => "Decryption Error"
    genus := r.genus
    habitat := r.habitat
    conservation_status := r.conservation_status }

/-- Model of `view_registry` (lines 118-127): `SELECT * FROM frogs`
followed by the decrypt-and-insert loop, one output row per stored row in
storage order. -/
def view_registry (f : Fernet) (db : DB) : List ViewRow :=
  db.rows.map (decryptRow f)

/-- The six values offered by the read-only conservation-status combobox
(lines 35-37). -/
def conservationStatuses : List String :=
  ["Least Concern", "Near Threatened", "Vulnerable", "Endangered",
   "Critically Endangered", "Extinct"]

/-- Run a sequence of `save_record` calls, collecting the auto-assigned
identifiers of the successful ones. -/
def runInserts (enc : String → Option CipherText) :
    List Entries → DB → List Nat × DB
  | [], db => ([], db)
  | e :: rest, db =>
    match save_record enc e db with
    | (.success i, db1) =>
      let (ids, db2) := runInserts enc rest db1
      (i :: ids, db2)
    | (_, db1) => runInserts enc rest db1

/-- A sample valid Fernet key (43 alphabet bytes and one padding byte),
used to instantiate theorems at concrete inputs. -/
def exampleKeyBytes : List Nat :=
  List.replicate 43 65 ++ [61]

/-- A sample cipher built from the sample key. -/
def f0 : Fernet := ⟨exampleKeyBytes⟩

/-- A sample stored row whose species name decrypts under `f0`. -/
def rowA : Row :=
  ⟨1, .token exampleKeyBytes "Rana temporaria", "Rana", "Pond", "Least Concern"⟩

/-- A sample stored row whose species name does not decrypt under `f0`
(text written under a different key or corrupted). -/
def rowB : Row :=
  ⟨2, .garbage "gAAAAABcorrupted", "Bufo", "Desert", "Vulnerable"⟩

/-- A sample table holding one good and one bad row. -/
def db0 : DB := ⟨[rowA, rowB], 3⟩


/-- Specification of the success branch of `save_record`: a success result
carries the current auto-increment id, bumps the counter, and appends
exactly one row built from the stripped entry values. -/
theorem save_record_success_spec {enc : String → Option CipherText}
    {e : Entries} {db : DB} {i : Nat} {db1 : DB}
    (h : save_record enc e db = (.success i, db1)) :
    i = db.nextId ∧ db1.nextId = db.nextId + 1 ∧
    ∃ ct, enc (pyStrip e.species) = some ct ∧
      db1.rows = db.rows ++
        [⟨db.nextId, ct, pyStrip e.genus, pyStrip e.habitat, e.status⟩] := by
  unfold save_record at h
  dsimp only at h
  split at h
  · simp at h
  · split at h
    · simp at h
    · rename_i ct hct
      simp only [Prod.mk.injEq, SaveResult.success.injEq] at h
      obtain ⟨h1, h2⟩ := h
      subst h1
      subst h2
      exact ⟨rfl, rfl, ct, hct, rfl⟩

/-- When `save_record` does not succeed, the database is unchanged. -/
theorem save_record_fail_spec {enc : String → Option CipherText}
    {e : Entries} {db : DB} {r : SaveResult} {db1 : DB}
    (h : save_record enc e db = (r, db1)) (hr : ∀ i, r ≠ .success i) :
    db1 = db := by
  unfold save_record at h
  dsimp only at h
  split at h
  · simp only [Prod.mk.injEq] at h
    exact h.2.symm
  · split at h
    · simp only [Prod.mk.injEq] at h
      exact h.2.symm
    · simp only [Prod.mk.injEq] at h
      exact absurd h.1.symm (hr db.nextId)

/-- Every identifier returned by a run of inserts is at least the
auto-increment counter the run started from. -/
theorem runInserts_mem_lb (enc : String → Option CipherText) :
    ∀ (l : List Entries) (db : DB) (i : Nat),
      i ∈ (runInserts enc l db).1 → db.nextId ≤ i := by
  intro l
  induction l with
  | nil => intro db i h; simp [runInserts] at h
  | cons e rest ih =>
    intro db i h
    rcases hsr : save_record enc e db with ⟨r, db1⟩
    simp only [runInserts] at h
    rw [hsr] at h
    cases r with
    | success j =>
      obtain ⟨hj, hn, -⟩ := save_record_success_spec hsr
      dsimp only at h
      rcases List.mem_cons.mp h with h | h
      · subst h
        exact hj.ge
      · have hlb := ih db1 i h
        omega
    | validationError =>
      have hdb : db1 = db := save_record_fail_spec hsr (by intro i h; cases h)
      dsimp only at h
      exact hdb ▸ ih db1 i h
    | encryptionError =>
      have hdb : db1 = db := save_record_fail_spec hsr (by intro i h; cases h)
      dsimp only at h
      exact hdb ▸ ih db1 i h

/-- C5: identifiers of successive successful inserts are strictly
increasing and unique: the list of identifiers assigned by any sequence of
`save_record` calls is strictly sorted. -/
theorem insert_ids_strictly_increasing (enc : String → Option CipherText)
    (l : List Entries) (db : DB) :
    ((runInserts enc l db).1).Pairwise (· < ·) := by
  induction l generalizing db with
  | nil => simp [runInserts]
  | cons e rest ih =>
    rcases hsr : save_record enc e db with ⟨r, db1⟩
    simp only [runInserts]
    rw [hsr]
    cases r with
    | success j =>
      obtain ⟨hj, hn, -⟩ := save_record_success_spec hsr
      dsimp only
      rw [List.pairwise_cons]
      constructor
      · intro b hb
        have hlb := runInserts_mem_lb enc rest db1 b hb
        omega
      · exact ih db1
    | validationError => exact ih db1
    | encryptionError => exact ih db1

/-- One `save_record` call preserves the table invariant: row ids strictly
ascending in storage order and all below the auto-increment counter. -/
theorem save_record_wf {enc : String → Option CipherText} {e : Entries}
    {db : DB}
    (h1 : db.rows.Pairwise (fun a b => a.id < b.id))
    (h2 : ∀ r ∈ db.rows, r.id < db.nextId) :
    (save_record enc e db).2.rows.Pairwise (fun a b => a.id < b.id) ∧
    ∀ r ∈ (save_record enc e db).2.rows,
      r.id < (save_record enc e db).2.nextId := by
  rcases hsr : save_record enc e db with ⟨r, db1⟩
  dsimp only
  cases r with
  | success j =>
    obtain ⟨hj, hn, ct, hct, hrows⟩ := save_record_success_spec hsr
    rw [hrows, hn]
    constructor
    · rw [List.pairwise_append]
      refine ⟨h1, by simp, ?_⟩
      intro a ha b hb
      rcases List.mem_singleton.mp hb with rfl
      exact h2 a ha
    · intro rr hrr
      rcases List.mem_append.mp hrr with h | h
      · exact lt_trans (h2 rr h) (Nat.lt_succ_self _)
      · rcases List.mem_singleton.mp h with rfl
        exact Nat.lt_succ_self _
  | validationError =>
    have hdb : db1 = db := save_record_fail_spec hsr (by intro i h; cases h)
    subst hdb
    exact ⟨h1, h2⟩
  | encryptionError =>
    have hdb : db1 = db := save_record_fail_spec hsr (by intro i h; cases h)
    subst hdb
    exact ⟨h1, h2⟩

/-- A run of inserts preserves the table invariant. -/
theorem runInserts_wf (enc : String → Option CipherText) :
    ∀ (l : List Entries) (db : DB),
      db.rows.Pairwise (fun a b => a.id < b.id) →
      (∀ r ∈ db.rows, r.id < db.nextId) →
      (runInserts enc l db).2.rows.Pairwise (fun a b => a.id < b.id) ∧
      ∀ r ∈ (runInserts enc l db).2.rows,
        r.id < (runInserts enc l db).2.nextId := by
  intro l
  induction l with
  | nil =>
    intro db h1 h2
    exact ⟨h1, h2⟩
  | cons e rest ih =>
    intro db h1 h2
    rcases hsr : save_record enc e db with ⟨r, db1⟩
    have hw := @save_record_wf enc e db h1 h2
    rw [hsr] at hw
    dsimp only at hw
    simp only [runInserts]
    rw [hsr]
    cases r with
    | success j =>
      dsimp only
      exact ih db1 hw.1 hw.2
    | validationError => exact ih db1 hw.1 hw.2
    | encryptionError => exact ih db1 hw.1 hw.2

/-- C8: `view_registry` performs a full scan: it returns one output row
per stored row, in storage order (same identifier, genus, habitat and
conservation status at every position), with identifiers strictly
ascending for any table produced by a run of inserts on a fresh table —
no filtering, sorting or pagination. -/
theorem view_registry_full_scan (enc : String → Option CipherText)
    (l : List Entries) (f : Fernet) :
    let db := (runInserts enc l (create_table none)).2
    (view_registry f db).length = db.rows.length ∧
    (view_registry f db).map (fun v => v.id) = db.rows.map (fun r => r.id) ∧
    (view_registry f db).map (fun v => v.genus)
      = db.rows.map (fun r => r.genus) ∧
    (view_registry f db).map (fun v => v.habitat)
      = db.rows.map (fun r => r.habitat) ∧
    (view_registry f db).map (fun v => v.conservation_status)
      = db.rows.map (fun r => r.conservation_status) ∧
    ((view_registry f db).map (fun v => v.id)).Pairwise (· < ·) := by
  intro db
  have hmap : (view_registry f db).map (fun v => v.id)
      = db.rows.map (fun r => r.id) := by
    rw [view_registry, List.map_map]
    exact List.map_congr_left (fun a _ => rfl)
  have hwf := runInserts_wf enc l (create_table none)
    (by simp [create_table]) (by simp [create_table])
  refine ⟨by simp [view_registry], hmap, ?_, ?_, ?_, ?_⟩
  · rw [view_registry, List.map_map]
    exact List.map_congr_left (fun a _ => rfl)
  · rw [view_registry, List.map_map]
    exact List.map_congr_left (fun a _ => rfl)
  · rw [view_registry, List.map_map]
    exact List.map_congr_left (fun a _ => rfl)
  · rw [hmap]
    exact List.Pairwise.map (fun r : Row => r.id) (fun a b h => h) hwf.1

/-- C2: decryption is attempted independently per row: a row whose stored
species name does not decrypt under the process key is displayed with the
sentinel "Decryption Error" in place of the species name while keeping its
identifier, genus, habitat and conservation status; a row that does
decrypt is displayed with its plaintext; and every row is displayed either
way (the listing never shrinks). -/
theorem view_registry_bad_row_isolated (f : Fernet) (db : DB) (i : Nat)
    (r : Row) (hr : db.rows[i]? = some r) :
    (view_registry f db).length = db.rows.length ∧
    (fernetDecrypt f r.species_name = none →
      (view_registry f db)[i]? =
        some ⟨r.id, "Decryption Error", r.genus, r.habitat,
              r.conservation_status⟩) ∧
    (∀ s, fernetDecrypt f r.species_name = some s →
      (view_registry f db)[i]? =
        some ⟨r.id, s, r.genus, r.habitat, r.conservation_status⟩) := by
  refine ⟨by simp [view_registry], ?_, ?_⟩
  · intro hfail
    rw [view_registry, List.getElem?_map, hr]
    simp [decryptRow, hfail]
  · intro s hs
    rw [view_registry, List.getElem?_map, hr]
    simp [decryptRow, hs]

/-- Witness for C2 on the sample table `db0`: both rows are listed, the
bad row shows the sentinel with its other columns intact, and the good row
shows its decrypted species name. -/
theorem view_registry_bad_row_isolated_witness :
    (view_registry f0 db0).length = db0.rows.length ∧
    (view_registry f0 db0)[1]? =
      some ⟨2, "Decryption Error", "Bufo", "Desert", "Vulnerable"⟩ ∧
    (view_registry f0 db0)[0]? =
      some ⟨1, "Rana temporaria", "Rana", "Pond", "Least Concern"⟩ := by
  have hB := view_registry_bad_row_isolated f0 db0 1 rowB rfl
  have hA := view_registry_bad_row_isolated f0 db0 0 rowA rfl
  exact ⟨hB.1, hB.2.1 rfl, hA.2.2 "Rana temporaria" (by decide)⟩

/-- Reduction of `save_record` when some required field is empty after
stripping: the validation guard fires and nothing is written. -/
theorem save_record_validation_eq {enc : String → Option CipherText}
    {e : Entries} {db : DB}
    (h : pyStrip e.species = "" ∨ pyStrip e.genus = "" ∨
         pyStrip e.habitat = "" ∨ e.status = "") :
    save_record enc e db = (.validationError, db) := by
  unfold save_record
  dsimp only
  rw [if_pos h]

/-- Reduction of `save_record` when validation passes and encryption
succeeds with ciphertext `ct`. -/
theorem save_record_success_eq {enc : String → Option CipherText}
    {e : Entries} {db : DB} {ct : CipherText}
    (h1 : pyStrip e.species ≠ "") (h2 : pyStrip e.genus ≠ "")
    (h3 : pyStrip e.habitat ≠ "") (h4 : e.status ≠ "")
    (hct : enc (pyStrip e.species) = some ct) :
    save_record enc e db =
      (.success db.nextId,
        ⟨db.rows ++
           [⟨db.nextId, ct, pyStrip e.genus, pyStrip e.habitat, e.status⟩],
         db.nextId + 1⟩) := by
  unfold save_record
  dsimp only
  rw [if_neg, hct]
  intro hor
  rcases hor with h | h | h | h
  · exact h1 h
  · exact h2 h
  · exact h3 h
  · exact h4 h

/-- C3: an insert with any of the four fields empty is rejected with a
validation error, the database is untouched and the row count is
unchanged. -/
theorem save_record_rejects_empty_fields (enc : String → Option CipherText)
    (e : Entries) (db : DB)
    (h : e.species = "" ∨ e.genus = "" ∨ e.habitat = "" ∨ e.status = "") :
    save_record enc e db = (.validationError, db) ∧
    (save_record enc e db).2.rows.length = db.rows.length := by
  have hs : pyStrip e.species = "" ∨ pyStrip e.genus = "" ∨
      pyStrip e.habitat = "" ∨ e.status = "" := by
    rcases h with h | h | h | h
    · exact Or.inl (by rw [h]; rfl)
    · exact Or.inr (Or.inl (by rw [h]; rfl))
    · exact Or.inr (Or.inr (Or.inl (by rw [h]; rfl)))
    · exact Or.inr (Or.inr (Or.inr h))
  have he := @save_record_validation_eq enc e db hs
  exact ⟨he, by rw [he]⟩

/-- Witness for C3: an empty species name is rejected on the fresh table
and the row count stays zero. -/
theorem save_record_rejects_empty_fields_witness :
    save_record (fernetEncrypt f0) ⟨"", "Rana", "Pond", "Least Concern"⟩
        (create_table none) = (.validationError, create_table none) ∧
    (save_record (fernetEncrypt f0) ⟨"", "Rana", "Pond", "Least Concern"⟩
        (create_table none)).2.rows.length = (create_table none).rows.length :=
  save_record_rejects_empty_fields (fernetEncrypt f0)
    ⟨"", "Rana", "Pond", "Least Concern"⟩ (create_table none) (Or.inl rfl)

/-- C9: if encryption of the (stripped, non-empty) species name fails, the
insert is aborted with an encryption error reported to the caller and the
database is unchanged — no row is written. -/
theorem save_record_encryption_failure_no_write
    (enc : String → Option CipherText) (e : Entries) (db : DB)
    (h1 : pyStrip e.species ≠ "") (h2 : pyStrip e.genus ≠ "")
    (h3 : pyStrip e.habitat ≠ "") (h4 : e.status ≠ "")
    (henc : enc (pyStrip e.species) = none) :
    save_record enc e db = (.encryptionError, db) := by
  unfold save_record
  dsimp only
  rw [if_neg, henc]
  intro hor
  rcases hor with h | h | h | h
  · exact h1 h
  · exact h2 h
  · exact h3 h
  · exact h4 h

/-- Witness for C9: with an encryption function that always fails, a
fully-filled form is aborted with an encryption error and the fresh table
stays empty. -/
theorem save_record_encryption_failure_no_write_witness :
    save_record (fun _ => none)
        ⟨"Rana temporaria", "Rana", "Pond", "Least Concern"⟩
        (create_table none) = (.encryptionError, create_table none) :=
  save_record_encryption_failure_no_write (fun _ => none)
    ⟨"Rana temporaria", "Rana", "Pond", "Least Concern"⟩ (create_table none)
    (by decide) (by decide) (by decide) (by decide) rfl

/-- C10: the species name, genus and habitat inputs are stripped of
leading and trailing whitespace before validation and storage: an input
that strips to the empty string is rejected as empty, and a successful
insert stores the stripped forms (the species name encrypted). -/
theorem save_record_strips_inputs (f : Fernet) (e : Entries) (db : DB) :
    ((pyStrip e.species = "" ∨ pyStrip e.genus = "" ∨ pyStrip e.habitat = "")
      → save_record (fernetEncrypt f) e db = (.validationError, db)) ∧
    (∀ i db1, save_record (fernetEncrypt f) e db = (.success i, db1) →
      db1.rows = db.rows ++
        [⟨i, .token f.key (pyStrip e.species), pyStrip e.genus,
          pyStrip e.habitat, e.status⟩]) := by
  constructor
  · intro h
    refine @save_record_validation_eq (fernetEncrypt f) e db ?_
    rcases h with h | h | h
    · exact Or.inl h
    · exact Or.inr (Or.inl h)
    · exact Or.inr (Or.inr (Or.inl h))
  · intro i db1 h
    obtain ⟨hi, -, ct, hct, hrows⟩ := save_record_success_spec h
    have hct2 : ct = .token f.key (pyStrip e.species) := by
      unfold fernetEncrypt at hct
      exact (Option.some.injEq .. ▸ hct).symm
    subst hi
    rw [hrows, hct2]

/-- Witness for C10: a whitespace-only species name is rejected, and a
submission with padded fields is stored in stripped form. -/
theorem save_record_strips_inputs_witness :
    save_record (fernetEncrypt f0) ⟨"   ", "Rana", "Pond", "Least Concern"⟩
        (create_table none) = (.validationError, create_table none) ∧
    (save_record (fernetEncrypt f0)
        ⟨" Rana temporaria ", " Rana ", " Pond ", "Least Concern"⟩
        (create_table none)).2.rows =
      [⟨1, .token exampleKeyBytes "Rana temporaria", "Rana", "Pond",
        "Least Concern"⟩] := by
  have h1 := (save_record_strips_inputs f0
    ⟨"   ", "Rana", "Pond", "Least Concern"⟩ (create_table none)).1
    (Or.inl (by decide))
  have h2 := (save_record_strips_inputs f0
    ⟨" Rana temporaria ", " Rana ", " Pond ", "Least Concern"⟩
    (create_table none)).2 1
    (save_record (fernetEncrypt f0)
      ⟨" Rana temporaria ", " Rana ", " Pond ", "Least Concern"⟩
      (create_table none)).2 (by decide)
  refine ⟨h1, ?_⟩
  rw [h2]
  decide

/-- C7 counterexample: a non-empty conservation status outside the six
combobox values ("Invented Status") is accepted by `save_record`, which
writes a row carrying it — no membership check runs before the insert. -/
theorem save_record_nonenum_status_counterexample :
    conservationStatuses.contains "Invented Status" = false ∧
    ("Invented Status" == "") = false ∧
    (save_record (fernetEncrypt f0)
      ⟨"Rana temporaria", "Rana", "Pond", "Invented Status"⟩
      (create_table none)).1 = .success 1 ∧
    (save_record (fernetEncrypt f0)
      ⟨"Rana temporaria", "Rana", "Pond", "Invented Status"⟩
      (create_table none)).2.rows.map (fun r => r.conservation_status) =
      ["Invented Status"] := by
  decide

/-- C7 amended: `save_record` validates the conservation status only for
emptiness — the result is a validation error exactly when a required field
is empty after stripping — and any non-empty status string is stored
verbatim in the new row; the restriction to the six enumerated values
lives solely in the read-only combobox. -/
theorem save_record_status_not_checked (f : Fernet) (e : Entries)
    (db : DB) :
    ((save_record (fernetEncrypt f) e db).1 = .validationError ↔
      (pyStrip e.species = "" ∨ pyStrip e.genus = "" ∨
       pyStrip e.habitat = "" ∨ e.status = "")) ∧
    (pyStrip e.species ≠ "" → pyStrip e.genus ≠ "" → pyStrip e.habitat ≠ ""
      → e.status ≠ "" →
      (save_record (fernetEncrypt f) e db).2.rows = db.rows ++
        [⟨db.nextId, .token f.key (pyStrip e.species), pyStrip e.genus,
          pyStrip e.habitat, e.status⟩]) := by
  constructor
  · constructor
    · intro hv
      by_contra hcond
      push_neg at hcond
      obtain ⟨h1, h2, h3, h4⟩ := hcond
      rw [@save_record_success_eq (fernetEncrypt f) e db
        (.token f.key (pyStrip e.species)) h1 h2 h3 h4 rfl] at hv
      cases hv
    · intro h
      rw [@save_record_validation_eq (fernetEncrypt f) e db h]
  · intro h1 h2 h3 h4
    rw [@save_record_success_eq (fernetEncrypt f) e db
      (.token f.key (pyStrip e.species)) h1 h2 h3 h4 rfl]

/-- Witness for C7 (amended) at a status string outside the six values:
the insert is not rejected and the row carries the status verbatim. -/
theorem save_record_status_not_checked_witness :
    ((save_record (fernetEncrypt f0)
        ⟨"Rana temporaria", "Rana", "Pond", "Invented Status"⟩
        (create_table none)).1 = .validationError ↔
      (pyStrip "Rana temporaria" = "" ∨ pyStrip "Rana" = "" ∨
       pyStrip "Pond" = "" ∨ "Invented Status" = ("" : String))) ∧
    (save_record (fernetEncrypt f0)
        ⟨"Rana temporaria", "Rana", "Pond", "Invented Status"⟩
        (create_table none)).2.rows =
      (create_table none).rows ++
        [⟨1, .token f0.key (pyStrip "Rana temporaria"), pyStrip "Rana",
          pyStrip "Pond", "Invented Status"⟩] := by
  have h := save_record_status_not_checked f0
    ⟨"Rana temporaria", "Rana", "Pond", "Invented Status"⟩ (create_table none)
  exact ⟨h.1, h.2 (by decide) (by decide) (by decide) (by decide)⟩

/-- C1 counterexample: all four fields are non-empty (so the insert is
valid and succeeds), yet the species name listed afterwards is the
stripped form, not the submitted string with its leading space. -/
theorem insert_roundtrip_exact_counterexample :
    (" Agalychnis callidryas" == "") = false ∧
    ("Agalychnis" == "") = false ∧
    ("Rainforest canopy" == "") = false ∧
    ("Least Concern" == "") = false ∧
    (save_record (fernetEncrypt f0)
      ⟨" Agalychnis callidryas", "Agalychnis", "Rainforest canopy",
       "Least Concern"⟩ (create_table none)).1 = .success 1 ∧
    (view_registry f0 (save_record (fernetEncrypt f0)
      ⟨" Agalychnis callidryas", "Agalychnis", "Rainforest canopy",
       "Least Concern"⟩ (create_table none)).2).map (fun v => v.species) =
      ["Agalychnis callidryas"] ∧
    ("Agalychnis callidryas" == " Agalychnis callidryas") = false := by
  decide

/-- C1 amended: an insert whose four fields are non-empty after stripping
succeeds, and a subsequent listing shows exactly one extra record whose
decrypted species name is the stripped submitted species name (hence the
submitted string itself whenever it carries no leading or trailing
whitespace). -/
theorem insert_then_view_roundtrip_stripped (f : Fernet) (e : Entries)
    (db : DB)
    (h1 : pyStrip e.species ≠ "") (h2 : pyStrip e.genus ≠ "")
    (h3 : pyStrip e.habitat ≠ "") (h4 : e.status ≠ "") :
    (save_record (fernetEncrypt f) e db).1 = .success db.nextId ∧
    view_registry f (save_record (fernetEncrypt f) e db).2 =
      view_registry f db ++
        [⟨db.nextId, pyStrip e.species, pyStrip e.genus, pyStrip e.habitat,
          e.status⟩] := by
  rw [@save_record_success_eq (fernetEncrypt f) e db
    (.token f.key (pyStrip e.species)) h1 h2 h3 h4 rfl]
  refine ⟨rfl, ?_⟩
  simp [view_registry, decryptRow, fernetDecrypt]

/-- Witness for C1 (amended), reproducing the spec's example scenario:
inserting ("Agalychnis callidryas", "Agalychnis", "Rainforest canopy",
"Least Concern") into the fresh table yields id 1 and the listing shows
that very record, species name decrypted. -/
theorem insert_then_view_roundtrip_stripped_witness :
    (save_record (fernetEncrypt f0)
      ⟨"Agalychnis callidryas", "Agalychnis", "Rainforest canopy",
       "Least Concern"⟩ (create_table none)).1 = .success 1 ∧
    view_registry f0 (save_record (fernetEncrypt f0)
      ⟨"Agalychnis callidryas", "Agalychnis", "Rainforest canopy",
       "Least Concern"⟩ (create_table none)).2 =
      view_registry f0 (create_table none) ++
        [⟨1, "Agalychnis callidryas", "Agalychnis", "Rainforest canopy",
          "Least Concern"⟩] := by
  have h := insert_then_view_roundtrip_stripped f0
    ⟨"Agalychnis callidryas", "Agalychnis", "Rainforest canopy",
     "Least Concern"⟩ (create_table none)
    (by decide) (by decide) (by decide) (by decide)
  exact h

/-- C4: `load_or_generate_key` is stable: whenever a call returns a cipher
(in particular after the key file exists), a second call on the resulting
file state returns a cipher built from byte-identical key material and
leaves the file untouched. -/
theorem load_or_generate_key_stable (freshKey freshKey2 : List Nat)
    (fs : Option (List Nat)) (f1 : Fernet)
    (h : (load_or_generate_key freshKey fs).1 = some f1) :
    ∃ f2,
      (load_or_generate_key freshKey2 (load_or_generate_key freshKey fs).2).1
        = some f2 ∧
      f2.key = f1.key ∧
      (load_or_generate_key freshKey2 (load_or_generate_key freshKey fs).2).2
        = (load_or_generate_key freshKey fs).2 := by
  cases fs with
  | some k =>
    dsimp [load_or_generate_key] at h ⊢
    exact ⟨f1, h, rfl, rfl⟩
  | none =>
    dsimp [load_or_generate_key] at h ⊢
    exact ⟨f1, h, rfl, rfl⟩

/-- Witness for C4: generating the sample key on an absent file and
loading again returns byte-identical key material. -/
theorem load_or_generate_key_stable_witness :
    ∃ f2,
      (load_or_generate_key exampleKeyBytes
        (load_or_generate_key exampleKeyBytes none).2).1 = some f2 ∧
      f2.key = f0.key ∧
      (load_or_generate_key exampleKeyBytes
        (load_or_generate_key exampleKeyBytes none).2).2
        = (load_or_generate_key exampleKeyBytes none).2 :=
  load_or_generate_key_stable exampleKeyBytes exampleKeyBytes none f0
    (by decide)

/-- C6 counterexample: with a key file holding the three bytes "abc" (not
a valid Fernet key), `load_or_generate_key` itself fails — the
`Fernet(key)` constructor raises — instead of silently returning the raw
bytes and deferring the problem to decryption time. -/
theorem load_or_generate_key_invalid_file_counterexample :
    validFernetKey [97, 98, 99] = false ∧
    (load_or_generate_key exampleKeyBytes (some [97, 98, 99])).1 = none := by
  decide

/-- C6 amended: when the key file exists, its raw bytes are read back
verbatim and unmodified (any returned cipher wraps exactly the file's
bytes, and the file is untouched), but the `Fernet(key)` constructor then
validates the format: bytes that are not a 32-byte url-safe base64 key
make `load_or_generate_key` itself fail at load time. -/
theorem load_or_generate_key_raw_read (freshKey k : List Nat) :
    (load_or_generate_key freshKey (some k)).2 = some k ∧
    (∀ f, (load_or_generate_key freshKey (some k)).1 = some f → f.key = k) ∧
    (validFernetKey k = false →
      (load_or_generate_key freshKey (some k)).1 = none) := by
  refine ⟨rfl, ?_, ?_⟩
  · intro f h
    dsimp [load_or_generate_key, fernetInit] at h
    split at h
    · injection h with h1
      rw [← h1]
    · cases h
  · intro hv
    dsimp [load_or_generate_key, fernetInit]
    rw [if_neg]
    simp [hv]

/-- Witness for C6 (amended): the sample key file is read back verbatim,
and the invalid file "abc" makes the load itself fail. -/
theorem load_or_generate_key_raw_read_witness :
    (load_or_generate_key [] (some exampleKeyBytes)).2 = some exampleKeyBytes ∧
    f0.key = exampleKeyBytes ∧
    (load_or_generate_key [] (some [97, 98, 99])).1 = none := by
  have h1 := load_or_generate_key_raw_read [] exampleKeyBytes
  have h2 := load_or_generate_key_raw_read [] [97, 98, 99]
  exact ⟨h1.1, h1.2.1 f0 (by decide), h2.2.2 (by decide)⟩
